import Mathlib

/-!
Verification of the Task Execution and Worktree Merge Orchestration engine
of the Auto-Claude web server (`src/auto-claude-ui/src/web/server.ts`).

The definitions below are a shallow embedding of the relevant handlers:

* the running-task registry manipulated by `app.post('/api/tasks/:id/start')`
  (the `runningTasks` map, lines 1465-1625),
* the process exit handler installed on the spawned child (lines 1596-1622),
* the effective status derivation of `app.get('/api/tasks')` (lines 832-973),
* the structured-log merge of `app.get('/api/tasks/:id/logs')` (lines 4516-4584)
  and the polling watcher `startLogWatching` (lines 504-596),
* the worktree merge endpoint `app.post('/api/tasks/:id/worktree/merge')`
  (lines 3000-3269).

File-system state is threaded explicitly: the plan artifact
`implementation_plan.json` is an `Option PlanDoc` (`none` = file absent or
unparseable), and every external command observed by a handler is a field of an
environment record.  Side effects (broadcasts, git commands, kills) are
recorded as explicit action traces so ordering claims can be stated.
-/

namespace AutoClaude

/-- JavaScript string truthiness for optional string fields: an absent field and
the empty string are both falsy (`if (plan.parent_branch)` etc.). -/
def optTruthy (o : Option String) : Option String :=
  match o with
  | some s => if s = "" then none else some s
  | none => none

/-- Lexicographic comparison of char lists, mirroring the JavaScript `<`
operator on strings (used for `updated_at` comparison in the log merge). -/
def charsLt : List Char → List Char → Bool
  | [], [] => false
  | [], _ :: _ => true
  | _ :: _, [] => false
  | a :: as, b :: bs =>
    if a.val < b.val then true
    else if b.val < a.val then false
    else charsLt as bs

/-- JavaScript `a < b` on strings. -/
def strLt (a b : String) : Bool := charsLt a.data b.data

/-- One subtask / chunk record of a plan phase (`phases[].subtasks[]` or
`phases[].chunks[]`); only the fields read by the server are modelled. -/
structure SubtaskRec where
  id : Option String
  description : Option String
  status : Option String
deriving DecidableEq

/-- One phase of the plan artifact.  The server accepts both the `subtasks`
and the `chunks` naming convention (`phase.subtasks || phase.chunks || []`). -/
structure PhaseRec where
  subtasks : Option (List SubtaskRec)
  chunks : Option (List SubtaskRec)
deriving DecidableEq

/-- The `qa_signoff` object of the plan artifact; only `status` is read. -/
structure QaSignoff where
  status : Option String
deriving DecidableEq

/-- The on-disk plan artifact `implementation_plan.json`, restricted to the
fields this subsystem reads or writes. -/
structure PlanDoc where
  phases : Option (List PhaseRec)
  qa_signoff : Option QaSignoff
  status : Option String
  planStatus : Option String
  parent_branch : Option String
  merged_at : Option String
  updated_at : Option String
deriving DecidableEq

/-! ## Running-task registry (`runningTasks` map)

`app.post('/api/tasks/:id/start')` first returns early when the project or the
auto-claude installation is missing; otherwise it kills and deletes any handle
already registered for the task id, spawns a fresh child process and registers
the new handle under the same id (lines 1472-1523).  Handles are numbered by a
counter so that "the handle of the most recent start" is expressible. -/

/-- One call of the start endpoint as far as the registry is concerned:
`earlyReturn` is true when the handler returns before touching the map
(project not found / auto-claude installation not found). -/
structure StartCall where
  taskId : String
  earlyReturn : Bool
deriving DecidableEq

/-- Registry state: the association list backing the `runningTasks` map
(keys are task ids, values number the spawned handle) plus the counter
handing out fresh handle numbers. -/
structure RegSt where
  handles : List (String × Nat)
  counter : Nat
deriving DecidableEq

/-- `runningTasks.delete(taskId)`: removal of every entry with the given key. -/
def eraseKey (t : String) (l : List (String × Nat)) : List (String × Nat) :=
  l.filter (fun p => p.1 ≠ t)

/-- `runningTasks.get(taskId)`: lookup by key. -/
def lookupKey (t : String) : List (String × Nat) → Option Nat
  | [] => none
  | (k, v) :: rest => if k = t then some v else lookupKey t rest

/-- Number of entries registered under a key. -/
def countKey (t : String) (l : List (String × Nat)) : Nat :=
  (l.filter (fun p => p.1 = t)).length

/-- Effect of one start call on the registry (lines 1481-1485 and 1519-1523):
kill and delete any existing handle, then register the freshly spawned one. -/
def regStart (st : RegSt) (c : StartCall) : RegSt :=
  if c.earlyReturn then st
  else { handles := (c.taskId, st.counter) :: eraseKey c.taskId st.handles,
         counter := st.counter + 1 }

/-- Registry state after a sequence of start calls from the empty registry. -/
def runStarts (calls : List StartCall) : RegSt :=
  calls.foldl regStart { handles := [], counter := 0 }

/-- Accumulator step computing, per task id, the handle number handed out by
the most recent non-early start (specification-side companion of `regStart`). -/
def mostRecentStep (t : String) (acc : Option Nat × Nat) (c : StartCall) :
    Option Nat × Nat :=
  if c.earlyReturn then acc
  else (if c.taskId = t then some acc.2 else acc.1, acc.2 + 1)

/-- Handle number assigned by the most recent successful start of `t` in the
call sequence, if any. -/
def mostRecentStartId (calls : List StartCall) (t : String) : Option Nat :=
  (calls.foldl (mostRecentStep t) (none, 0)).1

/-! ## The start route (`app.post('/api/tasks/:id/start')`) -/

/-- Observable actions of the start handler, in program order. -/
inductive StartAct where
  | killOld
  | removeOld
  | spawnProc
  | logSpawnError
  | registerHandle
  | persistInProgress
  | emitInProgress
  | startWatch
deriving DecidableEq

/-- The HTTP response produced by a route handler. -/
structure RouteResponse where
  httpStatus : Nat
  success : Bool
  error : Option String
deriving DecidableEq

/-- Result of one start-route invocation. -/
structure StartResult where
  response : RouteResponse
  actions : List StartAct
  plan : Option PlanDoc
deriving DecidableEq

/-- Plan-artifact update performed on start (lines 1540-1556): status and
planStatus become `in_progress`, `updated_at` is refreshed, and
`parent_branch` is recorded only when not already set and a branch was
detected (`if (!plan.parent_branch && parentBranch)`). -/
def startPersist (parentBranch now : String) (p : PlanDoc) : PlanDoc :=
  { p with
    status := some "in_progress"
    planStatus := some "in_progress"
    updated_at := some now
    parent_branch :=
      if optTruthy p.parent_branch = none ∧ parentBranch ≠ "" then
        some parentBranch
      else p.parent_branch }

/-- The start route (lines 1465-1625).  `projectFound` is the project lookup,
`autoBuildFound` is `getAutoBuildPath()` succeeding, `hasExisting` is
`runningTasks.has(taskId)`, `spawnFails` records whether the spawned child
emits an asynchronous `error` event (its handler only logs, line 1515-1517).
The plan update is skipped when the artifact does not exist (`plan = none`).
The response is `success: true` whenever spawning was attempted, regardless of
`spawnFails` (line 1624). -/
def startRoute (projectFound autoBuildFound hasExisting spawnFails : Bool)
    (plan : Option PlanDoc) (parentBranch now : String) : StartResult :=
  if !projectFound then
    { response := { httpStatus := 404, success := false, error := some "Project not found" },
      actions := [], plan := plan }
  else if !autoBuildFound then
    { response := { httpStatus := 500, success := false, error := some "auto-claude not found" },
      actions := [], plan := plan }
  else
    { response := { httpStatus := 200, success := true, error := none },
      actions :=
        (if hasExisting then [StartAct.killOld, StartAct.removeOld] else [])
          ++ [StartAct.spawnProc]
          ++ (if spawnFails then [StartAct.logSpawnError] else [])
          ++ [StartAct.registerHandle]
          ++ (if plan.isSome then [StartAct.persistInProgress] else [])
          ++ [StartAct.emitInProgress, StartAct.startWatch],
      plan := plan.map (startPersist parentBranch now) }

/-! ## The process exit handler (lines 1596-1622) -/

/-- Steps of the exit handler, in program order. -/
inductive ExitStep where
  | unregister
  | stopWatcher
  | emitExit (code : Option Int)
  | persistStatus (s : String)
  | emitStatusChange (s : String)
deriving DecidableEq

/-- `const finalStatus = code === 0 ? 'human_review' : 'backlog'` (line 1603);
`code` is `null` when the child was killed by a signal. -/
def finalStatusOfCode (code : Option Int) : String :=
  if code = some 0 then "human_review" else "backlog"

/-- `exitPlan.planStatus = finalStatus === 'human_review' ? 'review' : 'pending'`
(line 1611). -/
def planStatusOfFinal (final : String) : String :=
  if final = "human_review" then "review" else "pending"

/-- Plan-artifact update performed by the exit handler (lines 1609-1613). -/
def exitPersist (final now : String) (p : PlanDoc) : PlanDoc :=
  { p with
    status := some final
    planStatus := some (planStatusOfFinal final)
    updated_at := some now }

/-- Result of the exit handler: registry and watcher maps after the handler,
the synchronous step trace, and the plan artifact after the handler. -/
structure ExitResult where
  reg : List (String × Nat)
  watchers : List String
  trace : List ExitStep
  plan : Option PlanDoc
deriving DecidableEq

/-- The `child.on('exit', ...)` handler (lines 1596-1622): unregister the
handle, stop the log watcher, broadcast `task:exit`, persist the derived final
status when the plan artifact exists, then broadcast `task:statusChange`. -/
def exitHandler (taskId : String) (code : Option Int)
    (reg : List (String × Nat)) (watchers : List String)
    (plan : Option PlanDoc) (now : String) : ExitResult :=
  let final := finalStatusOfCode code
  { reg := eraseKey taskId reg
    watchers := watchers.filter (fun w => w ≠ taskId)
    trace :=
      [ExitStep.unregister, ExitStep.stopWatcher, ExitStep.emitExit code]
        ++ (if plan.isSome then [ExitStep.persistStatus final] else [])
        ++ [ExitStep.emitStatusChange final]
    plan := plan.map (exitPersist final now) }

/-! ## Effective task status (`app.get('/api/tasks')`, lines 832-973) -/

/-- Subtask status strings of a plan, as extracted by the task-listing handler
(lines 877-888): each phase contributes `phase.subtasks || phase.chunks || []`,
and each item's status defaults to `pending` (`subtask.status || 'pending'`). -/
def planSubtaskStatuses (p : PlanDoc) : List String :=
  (((p.phases.getD []).map
      (fun ph => ph.subtasks.getD (ph.chunks.getD []))).flatten).map
    (fun s => (optTruthy s.status).getD "pending")

/-- Outcome of the substring searches on `qa_report.md` (lines 916-927):
whether the report text contains `REJECTED` or `FAILED`, and whether it
contains `PASSED` or `APPROVED`.  The flags abstract `qaContent.includes(...)`
on the raw file text. -/
structure QaReportFlags where
  rejectedOrFailed : Bool
  passedOrApproved : Bool
deriving DecidableEq

/-- Subtask-progress derivation (lines 890-912), producing the status and the
optional review reason. -/
def deriveSubtaskStatus (statuses : List String) (qaApproved : Bool) :
    String × Option String :=
  if statuses.length > 0 then
    let completed := (statuses.filter (fun s => s == "completed")).length
    let inProgress := (statuses.filter (fun s => s == "in_progress")).length
    let failed := (statuses.filter (fun s => s == "failed")).length
    if completed = statuses.length then
      if qaApproved then ("human_review", some "completed")
      else ("ai_review", none)
    else if failed > 0 then ("human_review", some "errors")
    else if inProgress > 0 ∨ completed > 0 then ("in_progress", none)
    else ("pending", none)
  else ("pending", none)

/-- QA-report override (lines 914-927), applied after the subtask derivation
when a `qa_report.md` file exists next to the plan. -/
def applyQaReport (cur : String × Option String) (statuses : List String)
    (qa : Option QaReportFlags) : String × Option String :=
  match qa with
  | none => cur
  | some f =>
    if f.rejectedOrFailed then ("human_review", some "qa_rejected")
    else if f.passedOrApproved &&
        (decide (statuses.length > 0) && statuses.all (fun s => s == "completed")) then
      ("human_review", some "completed")
    else cur

/-- Explicit plan-status override (lines 929-938): a recognized `plan.status`
value replaces the derived status (the review reason is left untouched). -/
def applyPlanStatusOverride (cur : String) (ps : Option String) : String :=
  if ps = some "done" ∨ ps = some "completed" then "done"
  else if ps = some "planning" ∨ ps = some "coding" then "in_progress"
  else if ps = some "human_review" then "human_review"
  else if ps = some "ai_review" then "ai_review"
  else cur

/-- Effective status and review reason reported for one task by
`app.get('/api/tasks')`: the subtask derivation, then the QA-report override,
then the explicit plan-status override, and finally the in-memory running
override (`runningTasks.has(specName) ? 'in_progress' : status`, line 953).
With no parseable plan the on-disk status stays at its initial `pending`. -/
def deriveTaskStatus (plan : Option PlanDoc) (qa : Option QaReportFlags)
    (running : Bool) : String × Option String :=
  match plan with
  | none => ((if running then "in_progress" else "pending"), none)
  | some p =>
    let statuses := planSubtaskStatuses p
    let qaApproved := p.qa_signoff.bind QaSignoff.status == some "approved"
    let s1 := deriveSubtaskStatus statuses qaApproved
    let s2 := applyQaReport s1 statuses qa
    let s3 := applyPlanStatusOverride s2.1 p.status
    ((if running then "in_progress" else s3), s2.2)

/-- A plan-status value that triggers none of the branches of the explicit
override (lines 929-938). -/
def overrideNeutral (ps : Option String) : Prop :=
  ps ≠ some "done" ∧ ps ≠ some "completed" ∧ ps ≠ some "planning" ∧
    ps ≠ some "coding" ∧ ps ≠ some "human_review" ∧ ps ≠ some "ai_review"

/-! ## Structured logs (`app.get('/api/tasks/:id/logs')` and `startLogWatching`) -/

/-- One phase object of `task_logs.json`; both fields may be absent in the
parsed JSON, and the handler guards every access with optional chaining. -/
structure LogPhase where
  status : Option String
  entries : Option (List String)
deriving DecidableEq

/-- The `phases` object of `task_logs.json`. -/
structure LogPhases where
  planning : Option LogPhase
  coding : Option LogPhase
  validation : Option LogPhase
deriving DecidableEq

/-- A parsed `task_logs.json` document. -/
structure TaskLogs where
  spec_id : String
  created_at : String
  updated_at : String
  phases : Option LogPhases
deriving DecidableEq

/-- The worktree-precedence test of the logs endpoint for one phase
(lines 4558 and 4561):
`w?.entries?.length > 0 || w?.status !== 'pending'` with JavaScript semantics,
so a missing phase object makes the second disjunct true. -/
def phaseFromWorktree (w : Option LogPhase) : Bool :=
  (match w.bind LogPhase.entries with
   | some es => !es.isEmpty
   | none => false)
  || !(w.bind LogPhase.status == some "pending")

/-- Log merge of `app.get('/api/tasks/:id/logs')` (lines 4545-4567): with only
one location present that copy is returned; with both present, `planning`
comes from the main copy when it has one, and `coding`/`validation` come from
the worktree copy exactly when `phaseFromWorktree` holds for it.  When the
worktree wins a phase the handler reads `worktreeLogs.phases.coding` without
optional chaining; a worktree document with no `phases` object would throw
there, which this model smooths to `none`. -/
def mergeTaskLogs (mainLogs wtLogs : Option TaskLogs) : Option TaskLogs :=
  match wtLogs with
  | none => mainLogs
  | some w =>
    match mainLogs with
    | none => some w
    | some m =>
      some
        { spec_id := m.spec_id
          created_at := m.created_at
          updated_at :=
            if strLt m.updated_at w.updated_at then w.updated_at else m.updated_at
          phases := some
            { planning :=
                (m.phases.bind LogPhases.planning) <|> (w.phases.bind LogPhases.planning)
              coding :=
                if phaseFromWorktree (w.phases.bind LogPhases.coding) then
                  w.phases.bind LogPhases.coding
                else m.phases.bind LogPhases.coding
              validation :=
                if phaseFromWorktree (w.phases.bind LogPhases.validation) then
                  w.phases.bind LogPhases.validation
                else m.phases.bind LogPhases.validation } }

/-- Result of one watcher poll tick. -/
structure TickResult where
  broadcastLogs : Option TaskLogs
  lastMain : Option TaskLogs
  lastWorktree : Option TaskLogs
deriving DecidableEq

/-- One tick of the `startLogWatching` interval (lines 542-572).  File
contents are modelled as parsed documents (`none` = file absent); comparing a
document against the last-seen one stands for the byte comparison
`content !== lastContent`, and parsing is assumed to succeed.  The main file
is checked first, then the worktree file; `newLogs` keeps the last assigned
content, so a changed worktree copy wins, and the broadcast content is the raw
changed document with no phase merging. -/
def watcherTick (mainFile wtFile lastMain lastWt : Option TaskLogs) : TickResult :=
  let mainStep : Option TaskLogs × Option TaskLogs :=
    match mainFile with
    | some c => if some c ≠ lastMain then (some c, some c) else (none, lastMain)
    | none => (none, lastMain)
  let wtStep : Option TaskLogs × Option TaskLogs :=
    match wtFile with
    | some c => if some c ≠ lastWt then (some c, some c) else (none, lastWt)
    | none => (none, lastWt)
  { broadcastLogs :=
      match wtStep.1 with
      | some c => some c
      | none => mainStep.1
    lastMain := mainStep.2
    lastWorktree := wtStep.2 }

/-! ## Worktree merge (`app.post('/api/tasks/:id/worktree/merge')`) -/

/-- Git-level actions of the merge endpoint, in program order. -/
inductive MAct where
  | checkoutBase (b : String)
  | mergeAbort
  | stashPush
  | housekeeping
  | mergeCmd
  | gitRm (f : String)
  | checkoutTheirs (f : String)
  | addFile (f : String)
  | submoduleKeepBase
  | commitCmd
  | mergeContinue
  | stashPop
  | stashDrop
  | persistPlanDone
deriving DecidableEq

/-- Environment of one merge invocation: the request argument and the outcomes
of the git commands the handler runs.  Plumbing commands whose failure the
handler either ignores or does not distinguish (checkout, status, stash push,
housekeeping) are modelled as succeeding. -/
structure MergeEnv where
  targetBranch : Option String
  mainVerifies : Bool
  currentBranch : String
  logOk : Bool
  unmergedEmpty : Bool
  hasChanges : Bool
  mergeOk : Bool
  conflictLines : List (String × String)
  submoduleInErr : Bool
  continueOk : Bool
  popOk : Bool
deriving DecidableEq

/-- Result of one merge invocation. -/
structure MergeOutcome where
  success : Bool
  actions : List MAct
  plan : Option PlanDoc
deriving DecidableEq

/-- `const autoResolvableFiles = ['.auto-claude-status', '.claude_settings.json']`
(line 3156). -/
def allowFiles : List String := [".auto-claude-status", ".claude_settings.json"]

/-- Base-branch resolution of the merge endpoint (lines 3015-3038): the
`targetBranch` request field when truthy, else the plan's `parent_branch` when
truthy, else `main` when `git rev-parse --verify main` succeeds, else
`master`.  The repository's currently checked-out branch is not consulted. -/
def resolveBaseBranch (target parentBranch : Option String)
    (mainVerifies : Bool) : String :=
  match optTruthy target with
  | some t => t
  | none =>
    match optTruthy parentBranch with
    | some p => p
    | none => if mainVerifies then "main" else "master"

/-- Modelled from the spec: base-branch resolution as
"explicit `targetBranch` argument, else `parent_branch` recorded in the plan
artifact, else the project's current branch, else `main`/`master` fallback"
(spec section 4.4 step 1).  The current branch is an `Option` so the final
fallback stays expressible. -/
def resolveBaseBranchSpec (target parentBranch currentBranch : Option String)
    (mainVerifies : Bool) : String :=
  match optTruthy target with
  | some t => t
  | none =>
    match optTruthy parentBranch with
    | some p => p
    | none =>
      match currentBranch with
      | some c => c
      | none => if mainVerifies then "main" else "master"

/-- Stash restoration on the successful path (lines 3225-3236): pop the stash
and, if popping fails, drop it. -/
def mergeStashFinalize (hasStash popOk : Bool) : List MAct :=
  if hasStash then
    MAct.stashPop :: (if popOk then [] else [MAct.stashDrop])
  else []

/-- A successful merge return (lines 3224-3255): restore the stash, persist
`status: done` with a fresh `merged_at` when the plan artifact exists, and
answer success. -/
def mergeSuccessOutcome (acts : List MAct) (hasStash popOk : Bool)
    (plan : Option PlanDoc) (now : String) : MergeOutcome :=
  { success := true
    actions := acts ++ mergeStashFinalize hasStash popOk
      ++ (if plan.isSome then [MAct.persistPlanDone] else [])
    plan := plan.map (fun p => { p with status := some "done", merged_at := some now }) }

/-- The catch block of the merge endpoint (lines 3256-3268): a stash created
earlier is popped best-effort, a pop failure is swallowed without dropping the
stash, the plan artifact is untouched, and the response carries the error. -/
def mergeFailOutcome (acts : List MAct) (hasStash : Bool)
    (plan : Option PlanDoc) : MergeOutcome :=
  { success := false
    actions := acts ++ (if hasStash then [MAct.stashPop] else [])
    plan := plan }

/-- The merge endpoint (lines 3000-3269).  After base resolution and an
optional checkout, an empty `git log base..branch` short-circuits into the
already-merged path (status `done`, `merged_at` kept when truthy, no further
git mutation).  Otherwise the handler aborts any merge in progress, stashes
uncommitted changes, performs housekeeping and attempts the merge; on
conflict, every conflicting path in the allow-list — or any submodule conflict
— triggers auto-resolution (`git rm` for DU/UD lines, `checkout --theirs`
plus `add` otherwise, a reset of submodule references to the base branch) and
a best-effort commit; an empty conflict list falls back to
`git merge --continue`; anything else rethrows into the catch block. -/
def mergeEndpoint (env : MergeEnv) (plan : Option PlanDoc) (now : String) :
    MergeOutcome :=
  let base := resolveBaseBranch env.targetBranch (plan.bind PlanDoc.parent_branch)
    env.mainVerifies
  let a0 : List MAct :=
    if env.currentBranch = base then [] else [MAct.checkoutBase base]
  if env.logOk && env.unmergedEmpty then
    { success := true
      actions := a0 ++ (if plan.isSome then [MAct.persistPlanDone] else [])
      plan := plan.map (fun p =>
        { p with status := some "done",
                 merged_at := some ((optTruthy p.merged_at).getD now) }) }
  else
    let hasStash := env.hasChanges
    let a1 := a0 ++ [MAct.mergeAbort]
      ++ (if hasStash then [MAct.stashPush] else [])
      ++ [MAct.housekeeping, MAct.mergeCmd]
    if env.mergeOk then
      mergeSuccessOutcome a1 hasStash env.popOk plan now
    else
      let conflictFiles := env.conflictLines.map Prod.snd
      let canAuto := !conflictFiles.isEmpty
        && conflictFiles.all (fun f => allowFiles.contains f)
      if canAuto || env.submoduleInErr then
        let ra := (env.conflictLines.map (fun l =>
          if l.1 = "DU" ∨ l.1 = "UD" then [MAct.gitRm l.2]
          else [MAct.checkoutTheirs l.2, MAct.addFile l.2])).flatten
        let sa := if env.submoduleInErr then [MAct.submoduleKeepBase] else []
        mergeSuccessOutcome (a1 ++ ra ++ sa ++ [MAct.commitCmd]) hasStash env.popOk plan now
      else if conflictFiles.isEmpty then
        if env.continueOk then
          mergeSuccessOutcome (a1 ++ [MAct.mergeContinue]) hasStash env.popOk plan now
        else mergeFailOutcome (a1 ++ [MAct.mergeContinue]) hasStash plan
      else
        mergeFailOutcome a1 hasStash plan

/-! ## Concrete sample documents and environments

Used by the counterexample theorems and the witnesses below. -/

/-- A completed subtask record. -/
def stCompleted : SubtaskRec := { id := some "1", description := some "d", status := some "completed" }

/-- A failed subtask record. -/
def stFailed : SubtaskRec := { id := some "2", description := none, status := some "failed" }

/-- A pending subtask record. -/
def stPending : SubtaskRec := { id := some "3", description := none, status := some "pending" }

/-- A phase whose single chunk is completed. -/
def phaseAllDone : PhaseRec := { subtasks := none, chunks := some [stCompleted] }

/-- A phase with completed, failed and pending chunks. -/
def phaseMixed : PhaseRec := { subtasks := none, chunks := some [stCompleted, stFailed, stPending] }

/-- A plan whose chunks are all completed, QA sign-off approved, and whose
explicit status field is `done` (a merged task). -/
def planMergedApproved : PlanDoc :=
  { phases := some [phaseAllDone], qa_signoff := some { status := some "approved" },
    status := some "done", planStatus := none, parent_branch := none,
    merged_at := none, updated_at := none }

/-- `planMergedApproved` without the explicit status field. -/
def planApprovedOnly : PlanDoc := { planMergedApproved with status := none }

/-- A plan with a failed chunk and no explicit status field. -/
def planWithFailure : PlanDoc := { planApprovedOnly with phases := some [phaseMixed] }

/-- A merge run hitting a conflict on a regular source file while the merge
error text mentions a submodule. -/
def mergeEnvSubmodule : MergeEnv :=
  { targetBranch := none, mainVerifies := true, currentBranch := "main",
    logOk := false, unmergedEmpty := false, hasChanges := false, mergeOk := false,
    conflictLines := [("UU", "src/app.ts")], submoduleInErr := true,
    continueOk := true, popOk := true }

/-- A merge run hitting an unresolvable conflict with a stash created and the
stash pop failing afterwards. -/
def mergeEnvConflictStash : MergeEnv :=
  { mergeEnvSubmodule with submoduleInErr := false, hasChanges := true, popOk := false }

/-- A merge run whose only conflict is on an allow-listed status file. -/
def mergeEnvAllowList : MergeEnv :=
  { mergeEnvSubmodule with
    submoduleInErr := false
    conflictLines := [("UU", ".auto-claude-status")] }

/-- A merge run against an already fully merged feature branch. -/
def mergeEnvAlready : MergeEnv :=
  { mergeEnvSubmodule with
    logOk := true
    unmergedEmpty := true
    conflictLines := []
    submoduleInErr := false }

/-- A finished planning phase with one entry. -/
def logPhaseDone : LogPhase := { status := some "completed", entries := some ["p"] }

/-- An untouched phase. -/
def logPhasePending : LogPhase := { status := some "pending", entries := some [] }

/-- A running coding phase with one entry. -/
def logPhaseRunning : LogPhase := { status := some "running", entries := some ["c1"] }

/-- Structured logs in the primary spec directory: planning finished, coding
and validation untouched. -/
def mainLogsSamplePhases : LogPhases :=
  { planning := some logPhaseDone, coding := some logPhasePending, validation := some logPhasePending }

/-- Structured logs in the primary spec directory (see `mainLogsSamplePhases`). -/
def mainLogsSample : TaskLogs :=
  { spec_id := "s", created_at := "c", updated_at := "1", phases := some mainLogsSamplePhases }

/-- Structured logs in the worktree mirror: coding running with an entry. -/
def worktreeLogsSamplePhases : LogPhases :=
  { planning := some logPhasePending, coding := some logPhaseRunning, validation := some logPhasePending }

/-- Structured logs in the worktree mirror (see `worktreeLogsSamplePhases`). -/
def worktreeLogsSample : TaskLogs :=
  { spec_id := "s", created_at := "c", updated_at := "2", phases := some worktreeLogsSamplePhases }

/-! ## The claims C2, C3, C5, C7, C8, C9 as stated

Each `Cn_..._property` renders one claim literally, to be refuted at a
concrete input by the corresponding counterexample theorem. -/

/-- Claim C2 as stated: the effective status of the task-listing operation is
fully determined by the subtask/QA rules, with the running override. -/
def C2_listing_property : Prop :=
  ∀ (p : PlanDoc) (qa : Option QaReportFlags) (running : Bool),
    (running = true → (deriveTaskStatus (some p) qa running).1 = "in_progress")
    ∧ ((planSubtaskStatuses p).all (fun s => s == "completed") = true →
        planSubtaskStatuses p ≠ [] →
        p.qa_signoff.bind QaSignoff.status = some "approved" →
        running = false →
        deriveTaskStatus (some p) qa running = ("human_review", some "completed"))
    ∧ ("failed" ∈ planSubtaskStatuses p →
        (planSubtaskStatuses p).all (fun s => s == "completed") ≠ true →
        running = false →
        deriveTaskStatus (some p) qa running = ("human_review", some "errors"))
    ∧ ((planSubtaskStatuses p).all (fun s => s == "completed") = true →
        planSubtaskStatuses p ≠ [] →
        p.qa_signoff.bind QaSignoff.status ≠ some "approved" →
        running = false →
        deriveTaskStatus (some p) qa running = ("ai_review", none))

/-- Claim C3 as stated: any conflicting path outside the allow-list makes the
merge fail, and on failure a created stash is restored or else dropped. -/
def C3_conflict_property : Prop :=
  ∀ (env : MergeEnv) (plan : Option PlanDoc) (now : String),
    (env.logOk && env.unmergedEmpty) = false →
    env.mergeOk = false →
    ((∃ f ∈ env.conflictLines.map Prod.snd, f ∉ allowFiles) →
        (mergeEndpoint env plan now).success = false)
    ∧ ((mergeEndpoint env plan now).success = false →
        env.hasChanges = true →
        (env.popOk = true ∨ MAct.stashDrop ∈ (mergeEndpoint env plan now).actions))

/-- Claim C5 as stated: the base branch resolution of the merge endpoint
matches the spec's four-step precedence, which consults the project's
currently checked-out branch before the main/master fallback. -/
def C5_resolution_property : Prop :=
  ∀ (target parentBranch : Option String) (currentBranch : String) (mainVerifies : Bool),
    resolveBaseBranch target parentBranch mainVerifies
      = resolveBaseBranchSpec target parentBranch (some currentBranch) mainVerifies

/-- Claim C7 as stated: the exit-driven status update is performed before the
exit event is sent to observers. -/
def C7_ordering_property : Prop :=
  ∀ (taskId : String) (code : Option Int) (reg : List (String × Nat))
    (watchers : List String) (p : PlanDoc) (now : String),
    (exitHandler taskId code reg watchers (some p) now).trace.indexOf
        (ExitStep.persistStatus (finalStatusOfCode code))
      < (exitHandler taskId code reg watchers (some p) now).trace.indexOf
        (ExitStep.emitExit code)

/-- Claim C8's watcher clause as stated: whenever the log artifact exists in
both locations, the content republished on change by the watcher obeys the
merge precedence of the logs endpoint. -/
def C8_watcher_property : Prop :=
  ∀ (m w : TaskLogs) (lastMain lastWt : Option TaskLogs),
    (watcherTick (some m) (some w) lastMain lastWt).broadcastLogs = none
    ∨ (watcherTick (some m) (some w) lastMain lastWt).broadcastLogs
      = mergeTaskLogs (some m) (some w)

/-- Claim C9 as stated: a start whose process fails to launch fails and the
spawn failure is surfaced to the caller as an error. -/
def C9_spawn_property : Prop :=
  ∀ (hasExisting : Bool) (plan : Option PlanDoc) (pb now : String),
    (startRoute true true hasExisting true plan pb now).response.success = false

/-! ## Helper lemmas -/

theorem lookupKey_eraseKey_self (t : String) (l : List (String × Nat)) :
    lookupKey t (eraseKey t l) = none := by
  induction l with
  | nil => rfl
  | cons p rest ih =>
    by_cases h : p.1 = t
    · simpa [eraseKey, List.filter_cons, h] using ih
    · simpa [eraseKey, List.filter_cons, h, lookupKey] using ih

theorem lookupKey_eraseKey_ne (t u : String) (h : u ≠ t) (l : List (String × Nat)) :
    lookupKey t (eraseKey u l) = lookupKey t l := by
  induction l with
  | nil => rfl
  | cons p rest ih =>
    obtain ⟨k, v⟩ := p
    by_cases hu : k = u
    · have hnt : ¬k = t := by rw [hu]; exact h
      have hstep : eraseKey u ((k, v) :: rest) = eraseKey u rest := by
        simp [eraseKey, List.filter_cons, hu]
      rw [hstep, ih, lookupKey, if_neg hnt]
    · have hstep : eraseKey u ((k, v) :: rest) = (k, v) :: eraseKey u rest := by
        simp [eraseKey, List.filter_cons, hu]
      rw [hstep]
      by_cases ht : k = t
      · simp [lookupKey, ht]
      · simp [lookupKey, ht, ih]

theorem countKey_cons (t : String) (p : String × Nat) (l : List (String × Nat)) :
    countKey t (p :: l) = (if p.1 = t then 1 else 0) + countKey t l := by
  by_cases h : p.1 = t <;> simp [countKey, List.filter_cons, h, Nat.add_comm]

theorem countKey_eraseKey_self (t : String) (l : List (String × Nat)) :
    countKey t (eraseKey t l) = 0 := by
  induction l with
  | nil => rfl
  | cons p rest ih =>
    by_cases h : p.1 = t <;>
      simpa [eraseKey, List.filter_cons, h, countKey_cons] using ih

theorem countKey_eraseKey_le (t u : String) (l : List (String × Nat)) :
    countKey t (eraseKey u l) ≤ countKey t l := by
  induction l with
  | nil => exact Nat.le_refl 0
  | cons p rest ih =>
    by_cases hu : p.1 = u
    · have hstep : eraseKey u (p :: rest) = eraseKey u rest := by
        simp [eraseKey, List.filter_cons, hu]
      rw [hstep, countKey_cons]
      omega
    · have hstep : eraseKey u (p :: rest) = p :: eraseKey u rest := by
        simp [eraseKey, List.filter_cons, hu]
      rw [hstep, countKey_cons, countKey_cons]
      by_cases ht : p.1 = t <;> simp [ht] <;> omega

theorem regStart_handles_not_early (st : RegSt) (c : StartCall)
    (he : c.earlyReturn = false) :
    (regStart st c).handles = (c.taskId, st.counter) :: eraseKey c.taskId st.handles := by
  simp [regStart, he]

theorem regStart_count_le_one (st : RegSt) (c : StartCall)
    (h : ∀ t, countKey t st.handles ≤ 1) (t : String) :
    countKey t (regStart st c).handles ≤ 1 := by
  cases he : c.earlyReturn with
  | true => simpa [regStart, he] using h t
  | false =>
    rw [regStart_handles_not_early st c he, countKey_cons]
    by_cases ht : c.taskId = t
    · subst ht
      simp [countKey_eraseKey_self]
    · have hle : countKey t (eraseKey c.taskId st.handles) ≤ 1 :=
        Nat.le_trans (countKey_eraseKey_le t c.taskId st.handles) (h t)
      rw [if_neg ht]
      omega

theorem runStarts_count_le_one (calls : List StartCall) :
    ∀ (st : RegSt), (∀ t, countKey t st.handles ≤ 1) →
      ∀ t, countKey t ((calls.foldl regStart st).handles) ≤ 1 := by
  induction calls with
  | nil => intro st h t; exact h t
  | cons c cs ih =>
    intro st h t
    exact ih (regStart st c) (regStart_count_le_one st c h) t

theorem runStarts_lookup_aux (calls : List StartCall) :
    ∀ (st : RegSt) (t : String),
      lookupKey t ((calls.foldl regStart st).handles)
        = (calls.foldl (mostRecentStep t) (lookupKey t st.handles, st.counter)).1 := by
  induction calls with
  | nil => intro st t; rfl
  | cons c cs ih =>
    intro st t
    rw [List.foldl_cons, List.foldl_cons, ih]
    have hstep : (lookupKey t (regStart st c).handles, (regStart st c).counter)
        = mostRecentStep t (lookupKey t st.handles, st.counter) c := by
      unfold regStart mostRecentStep
      by_cases he : c.earlyReturn = true
      · simp [he]
      · by_cases ht : c.taskId = t
        · simp [he, ht, lookupKey, lookupKey_eraseKey_self]
        · simp [he, ht, lookupKey, lookupKey_eraseKey_ne t c.taskId ht]
    rw [hstep]

theorem optTruthy_ne_empty (o : Option String) (s : String)
    (h : optTruthy o = some s) : s ≠ "" := by
  match o with
  | none => simp [optTruthy] at h
  | some v =>
    by_cases hv : v = ""
    · simp [optTruthy, hv] at h
    · simp [optTruthy, hv] at h
      intro hs
      exact hv (h ▸ hs)

/-! ## C1: at most one handle per taskId, corresponding to the most recent
start, the old handle being killed and removed before the new registration -/

/-- C1: for any sequence of start calls from the empty registry, at most one
handle is registered per taskId and it is the handle of the most recent
successful start of that id; moreover the start route's action trace kills and
removes the existing handle before spawning and registering the new one. -/
theorem c1_registry_at_most_one (calls : List StartCall) (t : String) :
    countKey t (runStarts calls).handles ≤ 1
    ∧ lookupKey t (runStarts calls).handles = mostRecentStartId calls t
    ∧ ∀ (sf : Bool) (plan : Option PlanDoc) (pb now : String),
        (startRoute true true true sf plan pb now).actions.take 3
          = [StartAct.killOld, StartAct.removeOld, StartAct.spawnProc]
        ∧ StartAct.registerHandle ∈ (startRoute true true true sf plan pb now).actions := by
  refine ⟨?_, ?_, ?_⟩
  · exact runStarts_count_le_one calls { handles := [], counter := 0 } (by intro u; simp [countKey]) t
  · exact runStarts_lookup_aux calls { handles := [], counter := 0 } t
  · intro sf plan pb now
    cases sf <;> cases plan <;> simp [startRoute]

/-! ## C6: exit handling -/

/-- C6: on process exit the handler unregisters the handle, stops the watcher,
broadcasts the exit event carrying the code, persists the derived final status
into the plan artifact (`human_review` for exit code 0, `backlog` otherwise)
and broadcasts the resulting status change, in that order. -/
theorem c6_exit_handling (taskId : String) (code : Option Int)
    (reg : List (String × Nat)) (watchers : List String) (p : PlanDoc) (now : String) :
    lookupKey taskId (exitHandler taskId code reg watchers (some p) now).reg = none
    ∧ taskId ∉ (exitHandler taskId code reg watchers (some p) now).watchers
    ∧ (exitHandler taskId code reg watchers (some p) now).trace
        = [ExitStep.unregister, ExitStep.stopWatcher, ExitStep.emitExit code,
           ExitStep.persistStatus (finalStatusOfCode code),
           ExitStep.emitStatusChange (finalStatusOfCode code)]
    ∧ (exitHandler taskId code reg watchers (some p) now).plan
        = some { p with status := some (finalStatusOfCode code)
                        planStatus := some (planStatusOfFinal (finalStatusOfCode code))
                        updated_at := some now }
    ∧ (∀ z : Int, finalStatusOfCode (some z) = if z = 0 then "human_review" else "backlog")
    ∧ finalStatusOfCode none = "backlog" := by
  refine ⟨?_, ?_, ?_, ?_, ?_, rfl⟩
  · exact lookupKey_eraseKey_self taskId reg
  · simp [exitHandler]
  · simp [exitHandler]
  · simp [exitHandler, exitPersist]
  · intro z; simp [finalStatusOfCode]

/-! ## C7: event ordering around process exit -/

/-- C7 counterexample: in the exit handler the `task:exit` broadcast comes
before the status persist, so the claimed "status update before the exit event
is sent" ordering is false. -/
theorem c7_counterexample_ordering : ¬C7_ordering_property := by
  intro h
  exact absurd (h "t" (some 0) [] [] planMergedApproved "n") (by decide)

/-- C7 amended: within the synchronous exit handler the exit event is
published first, the derived status is then persisted, and the statusChange
event is published last — so a statusChange derived from an exit always
follows its exit event, but the persist happens after the exit broadcast, not
before it. -/
theorem c7_exit_ordering_amended (taskId : String) (code : Option Int)
    (reg : List (String × Nat)) (watchers : List String) (p : PlanDoc) (now : String) :
    ((exitHandler taskId code reg watchers (some p) now).trace
      = [ExitStep.unregister, ExitStep.stopWatcher] ++ ExitStep.emitExit code
          :: ExitStep.persistStatus (finalStatusOfCode code)
          :: [ExitStep.emitStatusChange (finalStatusOfCode code)])
    ∧ ∀ (plan : Option PlanDoc), ∃ pre mid,
        (exitHandler taskId code reg watchers plan now).trace
          = pre ++ ExitStep.emitExit code :: mid
              ++ [ExitStep.emitStatusChange (finalStatusOfCode code)] := by
  constructor
  · simp [exitHandler]
  · intro plan
    cases plan with
    | none => exact ⟨[ExitStep.unregister, ExitStep.stopWatcher], [], by simp [exitHandler]⟩
    | some q =>
      exact ⟨[ExitStep.unregister, ExitStep.stopWatcher],
        [ExitStep.persistStatus (finalStatusOfCode code)], by simp [exitHandler]⟩

/-! ## C9: spawn failures -/

/-- C9 counterexample: a start whose child process fails to launch still
answers `success: true`; the launch failure is not surfaced to the caller. -/
theorem c9_counterexample_spawn : ¬C9_spawn_property := by
  intro h
  exact absurd (h false none "" "") (by decide)

/-- C9 amended: a missing auto-claude installation is surfaced as a 500 error
with nothing spawned; once spawning is attempted it happens exactly once (no
retry) and the route answers success even when the child fails to launch, the
failure being only logged through the child's error event. -/
theorem c9_spawn_failure_amended (hasExisting spawnFails : Bool)
    (plan : Option PlanDoc) (pb now : String) :
    ((startRoute true false hasExisting spawnFails plan pb now).response
        = { httpStatus := 500, success := false, error := some "auto-claude not found" }
      ∧ (startRoute true false hasExisting spawnFails plan pb now).actions = []
      ∧ (startRoute true false hasExisting spawnFails plan pb now).plan = plan)
    ∧ ((startRoute true true hasExisting spawnFails plan pb now).response.success = true
      ∧ (startRoute true true hasExisting spawnFails plan pb now).actions.count StartAct.spawnProc = 1)
    ∧ (spawnFails = true →
        StartAct.logSpawnError ∈ (startRoute true true hasExisting spawnFails plan pb now).actions) := by
  refine ⟨⟨rfl, rfl, rfl⟩, ⟨rfl, ?_⟩, ?_⟩
  · cases hasExisting <;> cases spawnFails <;> cases plan <;>
      simp [startRoute, List.count_append, List.count_cons]
  · intro hsf
    subst hsf
    cases hasExisting <;> cases plan <;> simp [startRoute]

/-- C9 witness: the amended theorem applied to a run with a launch failure. -/
theorem c9_spawn_failure_witness :
    StartAct.logSpawnError ∈ (startRoute true true false true none "" "").actions :=
  (c9_spawn_failure_amended false true none "" "").2.2 rfl

/-! ## C2: effective status derivation of the task listing -/

theorem length_filter_completed_of_all (l : List String)
    (h : l.all (fun s => s == "completed") = true) :
    (l.filter (fun s => s == "completed")).length = l.length := by
  induction l with
  | nil => rfl
  | cons a rest ih =>
    rw [List.all_cons, Bool.and_eq_true] at h
    simp [List.filter_cons, h.1, ih h.2]

theorem all_completed_of_length_filter (l : List String)
    (h : (l.filter (fun s => s == "completed")).length = l.length) :
    l.all (fun s => s == "completed") = true := by
  induction l with
  | nil => rfl
  | cons a rest ih =>
    by_cases ha : (a == "completed") = true
    · rw [List.filter_cons, if_pos ha] at h
      simp only [List.length_cons, Nat.succ.injEq] at h
      rw [List.all_cons, ha, Bool.true_and]
      exact ih h
    · exfalso
      rw [List.filter_cons, if_neg ha] at h
      have hle := List.length_filter_le (fun s => s == "completed") rest
      simp only [List.length_cons] at h
      omega

theorem failed_count_pos_of_mem (l : List String) (h : "failed" ∈ l) :
    0 < (l.filter (fun s => s == "failed")).length :=
  List.length_pos_of_mem (List.mem_filter.2 ⟨h, by simp⟩)

theorem overrideNeutral_apply (ps : Option String) (hn : overrideNeutral ps) (s : String) :
    applyPlanStatusOverride s ps = s := by
  obtain ⟨h1, h2, h3, h4, h5, h6⟩ := hn
  simp [applyPlanStatusOverride, h1, h2, h3, h4, h5, h6]

/-- C2 counterexample: a plan whose chunks are all completed with an approved
QA sign-off but whose explicit status field is `done` is listed as `done`, not
`human_review` — the claimed derivation rules are overridden by the explicit
plan-status branch of the handler. -/
theorem c2_counterexample_listing : ¬C2_listing_property := by
  intro h
  exact absurd ((h planMergedApproved none false).2.1 (by decide) (by decide) rfl rfl)
    (by decide)

/-- C2 amended: the claimed derivation rules hold whenever no `qa_report.md`
override applies and the plan's explicit status field is not one of the
recognized override values; the running override holds unconditionally. -/
theorem c2_status_derivation_amended (p : PlanDoc) (hn : overrideNeutral p.status) :
    (∀ (plan : Option PlanDoc) (qa : Option QaReportFlags),
        (deriveTaskStatus plan qa true).1 = "in_progress")
    ∧ (planSubtaskStatuses p ≠ [] →
        (planSubtaskStatuses p).all (fun s => s == "completed") = true →
        p.qa_signoff.bind QaSignoff.status = some "approved" →
        deriveTaskStatus (some p) none false = ("human_review", some "completed"))
    ∧ ("failed" ∈ planSubtaskStatuses p →
        (planSubtaskStatuses p).all (fun s => s == "completed") ≠ true →
        deriveTaskStatus (some p) none false = ("human_review", some "errors"))
    ∧ (planSubtaskStatuses p ≠ [] →
        (planSubtaskStatuses p).all (fun s => s == "completed") = true →
        p.qa_signoff.bind QaSignoff.status ≠ some "approved" →
        deriveTaskStatus (some p) none false = ("ai_review", none)) := by
  refine ⟨?_, ?_, ?_, ?_⟩
  · intro plan qa
    cases plan <;> simp [deriveTaskStatus]
  · intro hne hall hqa
    have hpos : 0 < (planSubtaskStatuses p).length := List.length_pos.2 hne
    have hc := length_filter_completed_of_all (planSubtaskStatuses p) hall
    have hq : (p.qa_signoff.bind QaSignoff.status == some "approved") = true := by
      simp [hqa]
    simp only [deriveTaskStatus, deriveSubtaskStatus, applyQaReport, hq,
      if_pos hpos, hc, if_pos rfl, if_true]
    rw [overrideNeutral_apply p.status hn]
    simp
  · intro hf hnall
    have hpos : 0 < (planSubtaskStatuses p).length :=
      List.length_pos_of_mem hf
    have hfc : 0 < ((planSubtaskStatuses p).filter (fun s => s == "failed")).length :=
      failed_count_pos_of_mem (planSubtaskStatuses p) hf
    have hne : ((planSubtaskStatuses p).filter (fun s => s == "completed")).length
        ≠ (planSubtaskStatuses p).length := by
      intro h
      exact hnall (all_completed_of_length_filter (planSubtaskStatuses p) h)
    simp only [deriveTaskStatus, deriveSubtaskStatus, applyQaReport,
      if_pos hpos, if_neg hne, if_pos hfc]
    rw [overrideNeutral_apply p.status hn]
    simp
  · intro hne hall hqa
    have hpos : 0 < (planSubtaskStatuses p).length := List.length_pos.2 hne
    have hc := length_filter_completed_of_all (planSubtaskStatuses p) hall
    have hq : (p.qa_signoff.bind QaSignoff.status == some "approved") = false := by
      simpa using hqa
    simp only [deriveTaskStatus, deriveSubtaskStatus, applyQaReport, hq,
      if_pos hpos, hc, if_pos rfl, if_false]
    rw [overrideNeutral_apply p.status hn]
    simp

/-- C2 witness: the amended theorem applied to a plan with a failed chunk, to
a fully completed approved plan, and to a running task. -/
theorem c2_status_derivation_witness :
    deriveTaskStatus (some planWithFailure) none false = ("human_review", some "errors")
    ∧ deriveTaskStatus (some planApprovedOnly) none false = ("human_review", some "completed")
    ∧ (deriveTaskStatus (some planMergedApproved) none true).1 = "in_progress" :=
  ⟨(c2_status_derivation_amended planWithFailure
      ⟨by decide, by decide, by decide, by decide, by decide, by decide⟩).2.2.1
      (by decide) (by decide),
   (c2_status_derivation_amended planApprovedOnly
      ⟨by decide, by decide, by decide, by decide, by decide, by decide⟩).2.1
      (by decide) (by decide) rfl,
   (c2_status_derivation_amended planApprovedOnly
      ⟨by decide, by decide, by decide, by decide, by decide, by decide⟩).1
      (some planMergedApproved) none⟩

/-! ## C10: absent plan artifacts are never created -/

theorem persistPlanDone_not_mem_checkoutIf (c : Prop) [Decidable c] (b : String) :
    MAct.persistPlanDone ∉ (if c then ([] : List MAct) else [MAct.checkoutBase b]) := by
  split <;> simp

theorem persistPlanDone_not_mem_stashPushIf (c : Prop) [Decidable c] :
    MAct.persistPlanDone ∉ (if c then [MAct.stashPush] else ([] : List MAct)) := by
  split <;> simp

theorem persistPlanDone_not_mem_submoduleIf (c : Prop) [Decidable c] :
    MAct.persistPlanDone ∉ (if c then [MAct.submoduleKeepBase] else ([] : List MAct)) := by
  split <;> simp

theorem persistPlanDone_not_mem_popIf (c : Prop) [Decidable c] :
    MAct.persistPlanDone ∉ (if c then [MAct.stashPop] else ([] : List MAct)) := by
  split <;> simp

theorem persistPlanDone_not_mem_msf (hs pk : Bool) :
    MAct.persistPlanDone ∉ mergeStashFinalize hs pk := by
  unfold mergeStashFinalize
  split_ifs <;> simp

theorem persistPlanDone_not_mem_resolveActs (cl : List (String × String)) :
    MAct.persistPlanDone ∉ ((cl.map (fun l =>
      if l.1 = "DU" ∨ l.1 = "UD" then [MAct.gitRm l.2]
      else [MAct.checkoutTheirs l.2, MAct.addFile l.2])).flatten) := by
  intro h
  rw [List.mem_flatten] at h
  obtain ⟨acts, hacts, hmem⟩ := h
  rw [List.mem_map] at hacts
  obtain ⟨pair, _, rfl⟩ := hacts
  by_cases hdu : pair.1 = "DU" ∨ pair.1 = "UD" <;> simp [hdu] at hmem

/-- C10: none of the status-persisting operations creates a missing plan
artifact: with no plan on disk, start still answers success and broadcasts
`in_progress` without persisting, the exit handler still broadcasts the exit
and the derived status change without persisting, and the merge endpoint never
writes a plan and still succeeds on the already-merged and clean-merge paths. -/
theorem c10_plan_absent_preserved :
    (∀ (he sf : Bool) (pb now : String),
        (startRoute true true he sf none pb now).plan = none
        ∧ (startRoute true true he sf none pb now).response.success = true
        ∧ StartAct.emitInProgress ∈ (startRoute true true he sf none pb now).actions
        ∧ StartAct.persistInProgress ∉ (startRoute true true he sf none pb now).actions)
    ∧ (∀ (tid : String) (code : Option Int) (reg : List (String × Nat))
          (ws : List String) (now : String),
        (exitHandler tid code reg ws none now).plan = none
        ∧ ExitStep.emitExit code ∈ (exitHandler tid code reg ws none now).trace
        ∧ ExitStep.emitStatusChange (finalStatusOfCode code)
            ∈ (exitHandler tid code reg ws none now).trace
        ∧ ∀ s, ExitStep.persistStatus s ∉ (exitHandler tid code reg ws none now).trace)
    ∧ (∀ (env : MergeEnv) (now : String),
        (mergeEndpoint env none now).plan = none
        ∧ MAct.persistPlanDone ∉ (mergeEndpoint env none now).actions)
    ∧ (∀ (env : MergeEnv) (now : String),
        env.logOk = true → env.unmergedEmpty = true →
        (mergeEndpoint env none now).success = true)
    ∧ (∀ (env : MergeEnv) (now : String),
        env.mergeOk = true →
        (mergeEndpoint env none now).success = true) := by
  refine ⟨?_, ?_, ?_, ?_, ?_⟩
  · intro he sf pb now
    cases he <;> cases sf <;> simp [startRoute]
  · intro tid code reg ws now
    simp [exitHandler]
  · intro env now
    refine ⟨?_, ?_⟩
    · simp only [mergeEndpoint]
      split
      · simp
      · split
        · simp [mergeSuccessOutcome]
        · split
          · simp [mergeSuccessOutcome]
          · split
            · split <;> simp [mergeSuccessOutcome, mergeFailOutcome]
            · simp [mergeFailOutcome]
    · have hra := persistPlanDone_not_mem_resolveActs env.conflictLines
      simp only [mergeEndpoint]
      split
      · simp [persistPlanDone_not_mem_checkoutIf]
      · split
        · simp [mergeSuccessOutcome, persistPlanDone_not_mem_checkoutIf,
            persistPlanDone_not_mem_stashPushIf, persistPlanDone_not_mem_msf]
        · split
          · simp [mergeSuccessOutcome, persistPlanDone_not_mem_checkoutIf,
              persistPlanDone_not_mem_stashPushIf, persistPlanDone_not_mem_msf,
              persistPlanDone_not_mem_submoduleIf, hra]
          · split
            · split <;>
                simp [mergeSuccessOutcome, mergeFailOutcome,
                  persistPlanDone_not_mem_checkoutIf, persistPlanDone_not_mem_stashPushIf,
                  persistPlanDone_not_mem_msf, persistPlanDone_not_mem_popIf]
            · simp [mergeFailOutcome, persistPlanDone_not_mem_checkoutIf,
                persistPlanDone_not_mem_stashPushIf, persistPlanDone_not_mem_popIf]
  · intro env now h1 h2
    simp [mergeEndpoint, h1, h2]
  · intro env now hm
    unfold mergeEndpoint
    split
    · rfl
    · simp [hm, mergeSuccessOutcome]

/-! ## C8: structured-log merge precedence -/

/-- C8 counterexample: with both log copies present, a change to the primary
file alone makes the watcher broadcast the raw primary content, which differs
from the endpoint's merged content (whose coding phase comes from the
worktree). -/
theorem c8_counterexample_watcher : ¬C8_watcher_property := by
  intro h
  rcases h mainLogsSample worktreeLogsSample none (some worktreeLogsSample) with h1 | h1 <;>
    revert h1 <;> decide

/-- C8 amended: the logs endpooint merges the two copies with planning from
the primary directory and coding/validation from the worktree copy exactly
when that copy has entries or a non-pending status; the watcher, however,
republishes the raw content of whichever file changed (the worktree copy
winning when both changed in one tick), with no phase merging. -/
theorem c8_log_merge_amended (m w : TaskLogs) (mp wp : LogPhases)
    (mpl wc wv : LogPhase) (wce wve : List String) (wcs wvs : String)
    (hm : m.phases = some mp) (hw : w.phases = some wp)
    (hmpl : mp.planning = some mpl)
    (hwc : wp.coding = some wc) (hwce : wc.entries = some wce) (hwcs : wc.status = some wcs)
    (hwv : wp.validation = some wv) (hwve : wv.entries = some wve) (hwvs : wv.status = some wvs) :
    ((mergeTaskLogs (some m) (some w)).bind (fun t => t.phases.bind LogPhases.planning)
        = some mpl)
    ∧ ((mergeTaskLogs (some m) (some w)).bind (fun t => t.phases.bind LogPhases.coding)
        = if wce = [] ∧ wcs = "pending" then mp.coding else some wc)
    ∧ ((mergeTaskLogs (some m) (some w)).bind (fun t => t.phases.bind LogPhases.validation)
        = if wve = [] ∧ wvs = "pending" then mp.validation else some wv)
    ∧ (∀ lastMain lastWt : Option TaskLogs,
        (some w ≠ lastWt →
          (watcherTick (some m) (some w) lastMain lastWt).broadcastLogs = some w)
        ∧ (some w = lastWt → some m ≠ lastMain →
          (watcherTick (some m) (some w) lastMain lastWt).broadcastLogs = some m)
        ∧ (some w = lastWt → some m = lastMain →
          (watcherTick (some m) (some w) lastMain lastWt).broadcastLogs = none)) := by
  refine ⟨?_, ?_, ?_, ?_⟩
  · simp [mergeTaskLogs, hm, hmpl]
  · by_cases hce : wce = [] <;> by_cases hcs : wcs = "pending" <;>
      simp [mergeTaskLogs, phaseFromWorktree, hm, hw, hwc, hwce, hwcs, hce, hcs]
  · by_cases hve : wve = [] <;> by_cases hvs : wvs = "pending" <;>
      simp [mergeTaskLogs, phaseFromWorktree, hm, hw, hwv, hwve, hwvs, hve, hvs]
  · intro lastMain lastWt
    refine ⟨?_, ?_, ?_⟩
    · intro hne
      simp [watcherTick, hne]
    · intro heq hne
      simp [watcherTick, ← heq, hne]
    · intro heq heqm
      simp [watcherTick, ← heq, ← heqm]

/-- C8 witness: the amended theorem applied to the sample log documents. -/
theorem c8_log_merge_witness :
    (mergeTaskLogs (some mainLogsSample) (some worktreeLogsSample)).bind
        (fun t => t.phases.bind LogPhases.coding) = some logPhaseRunning
    ∧ (watcherTick (some mainLogsSample) (some worktreeLogsSample) none
        (some worktreeLogsSample)).broadcastLogs = some mainLogsSample := by
  have h := c8_log_merge_amended mainLogsSample worktreeLogsSample
    mainLogsSamplePhases worktreeLogsSamplePhases logPhaseDone logPhaseRunning
    logPhasePending ["c1"] [] "running" "pending" rfl rfl rfl rfl rfl rfl rfl rfl rfl
  exact ⟨by simpa using h.2.1, (h.2.2.2 none (some worktreeLogsSample)).2.1 rfl (by simp)⟩

/-! ## C3: conflict classification and stash handling -/

theorem stashDrop_not_mem_checkoutIf (c : Prop) [Decidable c] (b : String) :
    MAct.stashDrop ∉ (if c then ([] : List MAct) else [MAct.checkoutBase b]) := by
  split <;> simp

theorem stashDrop_not_mem_stashPushIf (c : Prop) [Decidable c] :
    MAct.stashDrop ∉ (if c then [MAct.stashPush] else ([] : List MAct)) := by
  split <;> simp

theorem stashDrop_not_mem_popIf (c : Prop) [Decidable c] :
    MAct.stashDrop ∉ (if c then [MAct.stashPop] else ([] : List MAct)) := by
  split <;> simp

/-- C3 counterexample: a merge whose conflicting path is an ordinary source
file is still auto-resolved and reported successful when the merge error text
mentions a submodule, contradicting the claim that any non-allow-listed
conflicting path makes the merge call fail. -/
theorem c3_counterexample_conflicts : ¬C3_conflict_property := by
  intro h
  have h1 := (h mergeEnvSubmodule none "t" rfl rfl).1
  exact absurd (h1 ⟨"src/app.ts", by decide, by decide⟩) (by decide)

/-- Reduction of the merge endpoint on the auto-resolve path. -/
theorem mergeEndpoint_autoresolve (env : MergeEnv) (plan : Option PlanDoc) (now : String)
    (h0 : (env.logOk && env.unmergedEmpty) = false)
    (hm : env.mergeOk = false)
    (hc : (!(env.conflictLines.map Prod.snd).isEmpty
        && (env.conflictLines.map Prod.snd).all (fun f => allowFiles.contains f)
        || env.submoduleInErr) = true) :
    mergeEndpoint env plan now =
      mergeSuccessOutcome
        ((if env.currentBranch = resolveBaseBranch env.targetBranch
            (plan.bind PlanDoc.parent_branch) env.mainVerifies then []
          else [MAct.checkoutBase (resolveBaseBranch env.targetBranch
            (plan.bind PlanDoc.parent_branch) env.mainVerifies)])
          ++ [MAct.mergeAbort]
          ++ (if env.hasChanges then [MAct.stashPush] else [])
          ++ [MAct.housekeeping, MAct.mergeCmd]
          ++ ((env.conflictLines.map (fun l =>
              if l.1 = "DU" ∨ l.1 = "UD" then [MAct.gitRm l.2]
              else [MAct.checkoutTheirs l.2, MAct.addFile l.2])).flatten)
          ++ (if env.submoduleInErr then [MAct.submoduleKeepBase] else [])
          ++ [MAct.commitCmd])
        env.hasChanges env.popOk plan now := by
  simp only [mergeEndpoint]
  rw [if_neg (by simp [h0]), if_neg (by simp [hm]), if_pos hc]

/-- Reduction of the merge endpoint on the unresolvable-conflict path. -/
theorem mergeEndpoint_conflict_fail (env : MergeEnv) (plan : Option PlanDoc) (now : String)
    (h0 : (env.logOk && env.unmergedEmpty) = false)
    (hm : env.mergeOk = false)
    (hc : (!(env.conflictLines.map Prod.snd).isEmpty
        && (env.conflictLines.map Prod.snd).all (fun f => allowFiles.contains f)
        || env.submoduleInErr) = false)
    (hne : (env.conflictLines.map Prod.snd).isEmpty = false) :
    mergeEndpoint env plan now =
      mergeFailOutcome
        ((if env.currentBranch = resolveBaseBranch env.targetBranch
            (plan.bind PlanDoc.parent_branch) env.mainVerifies then []
          else [MAct.checkoutBase (resolveBaseBranch env.targetBranch
            (plan.bind PlanDoc.parent_branch) env.mainVerifies)])
          ++ [MAct.mergeAbort]
          ++ (if env.hasChanges then [MAct.stashPush] else [])
          ++ [MAct.housekeeping, MAct.mergeCmd])
        env.hasChanges plan := by
  simp only [mergeEndpoint]
  rw [if_neg (by simp [h0]), if_neg (by simp [hm]),
    if_neg (fun hcc => by rw [hc] at hcc; simp at hcc),
    if_neg (fun hcc => by rw [hne] at hcc; simp at hcc)]

/-- C3 amended: with a conflicting merge, auto-resolution applies when every
conflicting path is allow-listed or when the error text mentions a submodule
(in both cases the call succeeds and a commit is attempted); otherwise the
failure propagates and a stash created earlier is popped best-effort but never
dropped in the failure path. -/
theorem c3_conflict_handling_amended (env : MergeEnv) (plan : Option PlanDoc) (now : String)
    (h0 : (env.logOk && env.unmergedEmpty) = false)
    (hm : env.mergeOk = false) :
    ((env.conflictLines.map Prod.snd ≠ []) →
      (∀ f ∈ env.conflictLines.map Prod.snd, f ∈ allowFiles) →
      (mergeEndpoint env plan now).success = true
      ∧ MAct.commitCmd ∈ (mergeEndpoint env plan now).actions)
    ∧ (env.submoduleInErr = true → (mergeEndpoint env plan now).success = true)
    ∧ ((∃ f ∈ env.conflictLines.map Prod.snd, f ∉ allowFiles) →
      env.submoduleInErr = false →
      (mergeEndpoint env plan now).success = false
      ∧ MAct.stashDrop ∉ (mergeEndpoint env plan now).actions
      ∧ (env.hasChanges = true → MAct.stashPop ∈ (mergeEndpoint env plan now).actions)
      ∧ (mergeEndpoint env plan now).plan = plan) := by
  refine ⟨?_, ?_, ?_⟩
  · intro hne hall
    have hempty : (env.conflictLines.map Prod.snd).isEmpty = false := by
      simp [List.isEmpty_iff, hne]
    have hallb : ((env.conflictLines.map Prod.snd).all
        (fun f => allowFiles.contains f)) = true := by
      rw [List.all_eq_true]
      intro f hf
      simpa [List.contains] using hall f hf
    have hc : (!(env.conflictLines.map Prod.snd).isEmpty
        && (env.conflictLines.map Prod.snd).all (fun f => allowFiles.contains f)
        || env.submoduleInErr) = true := by
      rw [hempty, hallb]
      simp
    rw [mergeEndpoint_autoresolve env plan now h0 hm hc]
    exact ⟨rfl, by simp [mergeSuccessOutcome, List.mem_append]⟩
  · intro hsub
    have hc : (!(env.conflictLines.map Prod.snd).isEmpty
        && (env.conflictLines.map Prod.snd).all (fun f => allowFiles.contains f)
        || env.submoduleInErr) = true := by
      rw [hsub]
      simp
    rw [mergeEndpoint_autoresolve env plan now h0 hm hc]
    rfl
  · intro hex hsub
    obtain ⟨f, hf, hfn⟩ := hex
    have hne : env.conflictLines.map Prod.snd ≠ [] := by
      intro hh
      rw [hh] at hf
      exact absurd hf (List.not_mem_nil f)
    have hempty : (env.conflictLines.map Prod.snd).isEmpty = false := by
      simp [List.isEmpty_iff, hne]
    have hallb : ((env.conflictLines.map Prod.snd).all
        (fun g => allowFiles.contains g)) = false := by
      cases hb : (env.conflictLines.map Prod.snd).all (fun g => allowFiles.contains g) with
      | false => rfl
      | true =>
        exfalso
        rw [List.all_eq_true] at hb
        exact hfn (by simpa [List.contains] using hb f hf)
    have hc : (!(env.conflictLines.map Prod.snd).isEmpty
        && (env.conflictLines.map Prod.snd).all (fun f => allowFiles.contains f)
        || env.submoduleInErr) = false := by
      rw [hallb, hsub]
      simp
    rw [mergeEndpoint_conflict_fail env plan now h0 hm hc hempty]
    refine ⟨rfl, ?_, ?_, rfl⟩
    · simp [mergeFailOutcome, List.mem_append, stashDrop_not_mem_checkoutIf,
        stashDrop_not_mem_stashPushIf, stashDrop_not_mem_popIf]
    · intro hhc
      simp [mergeFailOutcome, List.mem_append, hhc]

/-- C3 witness: the amended theorem applied to a run with an unresolvable
conflict, a stash and a failing stash pop, and to a run whose only conflict is
allow-listed. -/
theorem c3_conflict_handling_witness :
    (mergeEndpoint mergeEnvConflictStash none "t").success = false
    ∧ MAct.stashDrop ∉ (mergeEndpoint mergeEnvConflictStash none "t").actions
    ∧ (mergeEndpoint mergeEnvAllowList none "t").success = true := by
  have h1 := (c3_conflict_handling_amended mergeEnvConflictStash none "t" rfl rfl).2.2
    ⟨"src/app.ts", by decide, by decide⟩ rfl
  have h2 := (c3_conflict_handling_amended mergeEnvAllowList none "t" rfl rfl).1
    (by decide) (by decide)
  exact ⟨h1.1, h1.2.1, h2.1⟩

/-! ## C4: merge idempotence on an already merged branch -/

/-- Reduction of the merge endpoint on the already-merged path. -/
theorem mergeEndpoint_already (env : MergeEnv) (plan : Option PlanDoc) (now : String)
    (h : (env.logOk && env.unmergedEmpty) = true) :
    mergeEndpoint env plan now =
      { success := true
        actions :=
          (if env.currentBranch = resolveBaseBranch env.targetBranch
              (plan.bind PlanDoc.parent_branch) env.mainVerifies then []
           else [MAct.checkoutBase (resolveBaseBranch env.targetBranch
              (plan.bind PlanDoc.parent_branch) env.mainVerifies)])
          ++ (if plan.isSome then [MAct.persistPlanDone] else [])
        plan := plan.map (fun p =>
          { p with status := some "done",
                   merged_at := some ((optTruthy p.merged_at).getD now) }) } := by
  simp [mergeEndpoint, h]

/-- C4: merging a task whose feature branch has no commits beyond the base
branch succeeds with no stash, no merge command and no commit, persists
`done` keeping an existing `merged_at`, and a second merge call returns the
same success with the plan artifact unchanged. -/
theorem c4_merge_idempotent (env env2 : MergeEnv) (plan : Option PlanDoc) (now now2 : String)
    (h1 : env.logOk = true) (h2 : env.unmergedEmpty = true)
    (g1 : env2.logOk = true) (g2 : env2.unmergedEmpty = true)
    (hnow : now ≠ "") :
    (mergeEndpoint env plan now).success = true
    ∧ MAct.stashPush ∉ (mergeEndpoint env plan now).actions
    ∧ MAct.mergeCmd ∉ (mergeEndpoint env plan now).actions
    ∧ MAct.commitCmd ∉ (mergeEndpoint env plan now).actions
    ∧ (mergeEndpoint env plan now).plan
        = plan.map (fun p =>
            { p with status := some "done",
                     merged_at := some ((optTruthy p.merged_at).getD now) })
    ∧ (mergeEndpoint env2 ((mergeEndpoint env plan now).plan) now2).success = true
    ∧ (mergeEndpoint env2 ((mergeEndpoint env plan now).plan) now2).plan
        = (mergeEndpoint env plan now).plan := by
  have hcond : (env.logOk && env.unmergedEmpty) = true := by rw [h1, h2]; rfl
  have hcond2 : (env2.logOk && env2.unmergedEmpty) = true := by rw [g1, g2]; rfl
  rw [mergeEndpoint_already env plan now hcond,
    mergeEndpoint_already env2 _ now2 hcond2]
  refine ⟨rfl, ?_, ?_, ?_, rfl, rfl, ?_⟩
  · intro hmem
    rcases List.mem_append.1 hmem with h | h <;> split at h <;> simp at h
  · intro hmem
    rcases List.mem_append.1 hmem with h | h <;> split at h <;> simp at h
  · intro hmem
    rcases List.mem_append.1 hmem with h | h <;> split at h <;> simp at h
  · cases plan with
    | none => rfl
    | some p =>
      obtain ⟨m, hm_def⟩ : ∃ m, (optTruthy p.merged_at).getD now = m := ⟨_, rfl⟩
      have hmn : m ≠ "" := by
        rw [← hm_def]
        cases hx : optTruthy p.merged_at with
        | none => simpa using hnow
        | some s => simpa using optTruthy_ne_empty p.merged_at s hx
      have hopt : optTruthy (some m) = some m := by
        simp only [optTruthy]
        rw [if_neg hmn]
      simp only [Option.map_some']
      rw [hm_def, hopt]
      simp

/-- C4 witness: the idempotence theorem applied to an already-merged run. -/
theorem c4_merge_idempotent_witness :
    (mergeEndpoint mergeEnvAlready (some planApprovedOnly) "2024-01-01T00:00:00Z").success = true
    ∧ (mergeEndpoint mergeEnvAlready
        ((mergeEndpoint mergeEnvAlready (some planApprovedOnly) "2024-01-01T00:00:00Z").plan)
        "2024-02-02T00:00:00Z").plan
      = (mergeEndpoint mergeEnvAlready (some planApprovedOnly) "2024-01-01T00:00:00Z").plan := by
  have h := c4_merge_idempotent mergeEnvAlready mergeEnvAlready (some planApprovedOnly)
    "2024-01-01T00:00:00Z" "2024-02-02T00:00:00Z" (by decide) (by decide) (by decide)
    (by decide) (by decide)
  exact ⟨h.1, h.2.2.2.2.2.2⟩

/-! ## C5: base-branch resolution precedence -/

/-- C5 counterexample: at a run with no explicit target branch and no recorded
parent branch, the code resolves to `main` while the claimed precedence would
resolve to the currently checked-out branch `develop`. -/
theorem c5_counterexample_resolution : ¬C5_resolution_property := by
  intro h
  exact absurd (h none none "develop" true) (by decide)

/-- C5 amended: the base branch is the truthy `targetBranch` argument, else
the truthy `parent_branch` of the plan artifact, else `main` when it verifies
and `master` otherwise — the current branch is never consulted — and whenever
the current branch differs from the resolved base the merge endpoint checks
the base branch out. -/
theorem c5_base_resolution_amended (target parentBranch : Option String)
    (mainVerifies : Bool) (s q : String) :
    (optTruthy target = some s →
      resolveBaseBranch target parentBranch mainVerifies = s)
    ∧ (optTruthy target = none → optTruthy parentBranch = some q →
      resolveBaseBranch target parentBranch mainVerifies = q)
    ∧ (optTruthy target = none → optTruthy parentBranch = none →
      resolveBaseBranch target parentBranch mainVerifies
        = if mainVerifies then "main" else "master")
    ∧ (∀ (env : MergeEnv) (plan : Option PlanDoc) (now : String),
        env.currentBranch ≠ resolveBaseBranch env.targetBranch
          (plan.bind PlanDoc.parent_branch) env.mainVerifies →
        MAct.checkoutBase (resolveBaseBranch env.targetBranch
          (plan.bind PlanDoc.parent_branch) env.mainVerifies)
          ∈ (mergeEndpoint env plan now).actions) := by
  refine ⟨?_, ?_, ?_, ?_⟩
  · intro ht
    simp [resolveBaseBranch, ht]
  · intro ht hp
    simp [resolveBaseBranch, ht, hp]
  · intro ht hp
    simp [resolveBaseBranch, ht, hp]
  · intro env plan now hne
    simp only [mergeEndpoint]
    split
    · simp [hne]
    · split
      · simp [mergeSuccessOutcome, hne]
      · split
        · simp [mergeSuccessOutcome, hne]
        · split
          · split <;> simp [mergeSuccessOutcome, mergeFailOutcome, hne]
          · simp [mergeFailOutcome, hne]

/-- C5 witness: the amended resolution applied to an explicit target, to a
recorded parent branch, and to the fallback. -/
theorem c5_base_resolution_witness :
    resolveBaseBranch (some "dev") (some "feat") true = "dev"
    ∧ resolveBaseBranch none (some "feat") true = "feat"
    ∧ resolveBaseBranch none none true = "main" :=
  ⟨(c5_base_resolution_amended (some "dev") (some "feat") true "dev" "feat").1 rfl,
   (c5_base_resolution_amended none (some "feat") true "dev" "feat").2.1 rfl rfl,
   (c5_base_resolution_amended none none true "dev" "feat").2.2.1 rfl rfl⟩

/-- C10 witness: the preservation theorem applied to a start with no plan on
disk, to an already-merged merge run, and to a cleanly merging run. -/
theorem c10_plan_absent_witness :
    (startRoute true true false false none "main" "n").plan = none
    ∧ (mergeEndpoint mergeEnvAlready none "n").success = true
    ∧ (mergeEndpoint { mergeEnvSubmodule with mergeOk := true } none "n").success = true := by
  have h := c10_plan_absent_preserved
  exact ⟨(h.1 false false "main" "n").1,
    h.2.2.2.1 mergeEnvAlready "n" rfl rfl,
    h.2.2.2.2 { mergeEnvSubmodule with mergeOk := true } "n" rfl⟩

end AutoClaude
